import Mathlib

/-!
Verification of the rolling background estimator and falling-icon game of
`src/main.py` (classes `BackgroundExtraction` and `PlayGame`), as a shallow
embedding in Lean 4.

Frames are modelled as functions `ι → ℚ` from an abstract cell-index type
`ι` (in the program, `ι` is the set of coordinates of the downscaled grid);
the grayscale 8-bit frames fed to the estimator are integer-valued, modelled
as `ι → ℤ` and coerced into `ℚ` when stored in the window.  NumPy's `float32`
accumulation is modelled by exact rational arithmetic, matching the spec's
"exactly in exact arithmetic" reading of the mean invariant.
-/

namespace Spec2Proof

/-- Errors the Python runtime can raise during `BackgroundExtraction.__init__`:
`deque(maxlen=m)` raises `ValueError` for negative `m`, and `width // scale`
raises `ZeroDivisionError` for `scale == 0`.  The class itself performs no
validation of its own. -/
inductive InitError where
  | zeroDivision : InitError
  | valueError : InitError
  deriving DecidableEq, Repr

/-- State of `BackgroundExtraction`: capacity `maxlen`, the downscaled
dimensions, the frame window `buffer` (a list, oldest first, modelling the
`deque`), and the running mean `background` (`None` until the first frame,
modelled by `Option`). -/
structure BGState (ι : Type) where
  maxlen : ℕ
  scale : ℤ
  width : ℤ
  height : ℤ
  buffer : List (ι → ℚ)
  background : Option (ι → ℚ)

/-- Model of `BackgroundExtraction.__init__(width, height, scale, maxlen)`:
`self.width = width // scale`, `self.height = height // scale`,
`self.buffer = deque(maxlen=maxlen)`, `self.background = None`.
Python `//` is floor division (`Int.fdiv`).  No configuration validation is
performed by the code; the only failures are the runtime errors above. -/
def BGState.init (ι : Type) (width height scale maxlen : ℤ) :
    Except InitError (BGState ι) :=
  if scale = 0 then .error .zeroDivision
  else if maxlen < 0 then .error .valueError
  else .ok ⟨maxlen.toNat, scale, Int.fdiv width scale, Int.fdiv height scale, [], none⟩

/-- Model of `calculate_background`: zero grid, `+=` each window item, `/=` window
length — i.e. the pointwise sum of the buffer divided by its length. -/
def calculate_background {ι : Type} (buffer : List (ι → ℚ)) : ι → ℚ :=
  fun i => (buffer.map (fun f => f i)).sum / (buffer.length : ℚ)

/-- Model of `update_background(old_frame, new_frame)`:
`background -= old_frame / maxlen; background += new_frame / maxlen`. -/
def update_background {ι : Type} (bg oldf newf : ι → ℚ) (maxlen : ℕ) : ι → ℚ :=
  fun i => bg i - oldf i / (maxlen : ℚ) + newf i / (maxlen : ℚ)

/-- Model of `deque.popleft()`: removes and returns the leftmost (oldest) element;
raises `IndexError` on an empty deque (modelled by `none`). -/
def popleft {α : Type} : List α → Option (α × List α)
  | [] => none
  | x :: xs => some (x, xs)

/-- Model of `update_frame(frame)`: while the window is not full, append and recompute
the mean from scratch; once full, pop the oldest frame, append the new one
and update the mean incrementally.  `none` models the runtime errors of the
impossible paths (`popleft` on an empty deque, arithmetic on a `None`
background), which the totality lemmas below rule out for reachable states. -/
def update_frame {ι : Type} (s : BGState ι) (frame : ι → ℚ) :
    Option (BGState ι) :=
  if s.buffer.length < s.maxlen then
    let buffer := s.buffer ++ [frame]
    some { s with buffer := buffer, background := some (calculate_background buffer) }
  else
    match popleft s.buffer, s.background with
    | some (old_frame, rest), some bg =>
        some { s with
          buffer := rest ++ [frame]
          background := some (update_background bg old_frame frame s.maxlen) }
    | _, _ => none

/-- Run `update_frame` over a whole sequence of frames. -/
def runFrames {ι : Type} (s : BGState ι) : List (ι → ℚ) → Option (BGState ι)
  | [] => some s
  | f :: fs => (update_frame s f).bind (fun s1 => runFrames s1 fs)

/-- The exact arithmetic average of the frames currently held in the window. -/
def windowAverage {ι : Type} (buffer : List (ι → ℚ)) : ι → ℚ :=
  fun i => (buffer.map (fun f => f i)).sum / (buffer.length : ℚ)

/-- The estimator invariant: the window never exceeds capacity, and the
stored mean is exactly the average of the window contents (and is `None`
exactly while the window is empty). -/
def BGInv {ι : Type} (s : BGState ι) : Prop :=
  s.buffer.length ≤ s.maxlen ∧
    s.background = if s.buffer.isEmpty then none else some (windowAverage s.buffer)

/-- A fresh estimator (empty window, `background = None`). -/
def BGState.fresh (ι : Type) (maxlen : ℕ) (scale width height : ℤ) : BGState ι :=
  ⟨maxlen, scale, width, height, [], none⟩

theorem bgInv_fresh {ι : Type} (maxlen : ℕ) (sc w h : ℤ) :
    BGInv (BGState.fresh ι maxlen sc w h) := by
  constructor
  · simp [BGState.fresh]
  · simp [BGState.fresh]

theorem windowAverage_append {ι : Type} (buffer : List (ι → ℚ)) (f : ι → ℚ) :
    windowAverage (buffer ++ [f]) = calculate_background (buffer ++ [f]) := rfl

/-- Key algebraic fact: evicting the oldest frame and appending a new one,
with the incremental update `mean - old/N + new/N`, lands exactly on the
average of the new window, provided the window length equals `N`. -/
theorem update_background_exact {ι : Type} (old_frame newf : ι → ℚ)
    (rest : List (ι → ℚ)) (N : ℕ) (hN : (old_frame :: rest).length = N) :
    update_background (windowAverage (old_frame :: rest)) old_frame newf N =
      windowAverage (rest ++ [newf]) := by
  funext i
  have hN' : rest.length + 1 = N := by simpa using hN
  have hNQ : (N : ℚ) ≠ 0 := by
    have : 0 < N := by omega
    exact_mod_cast this.ne'
  simp only [update_background, windowAverage, List.map_cons, List.sum_cons,
    List.map_append, List.map, List.sum_append, List.sum_cons, List.sum_nil,
    List.length_cons, List.length_append, List.length_nil, hN']
  field_simp

/-- Behavior of `update_frame` on a non-full window (warm-up path). -/
theorem update_frame_not_full {ι : Type} (s : BGState ι) (f : ι → ℚ)
    (h : s.buffer.length < s.maxlen) :
    update_frame s f = some { s with
      buffer := s.buffer ++ [f]
      background := some (calculate_background (s.buffer ++ [f])) } := by
  simp [update_frame, h]

/-- Behavior of `update_frame` on a full window (steady-state path). -/
theorem update_frame_full {ι : Type} (s : BGState ι) (f old_frame : ι → ℚ)
    (rest : List (ι → ℚ)) (bg : ι → ℚ)
    (h : ¬ s.buffer.length < s.maxlen) (hbuf : s.buffer = old_frame :: rest)
    (hbg : s.background = some bg) :
    update_frame s f = some { s with
      buffer := rest ++ [f]
      background := some (update_background bg old_frame f s.maxlen) } := by
  rw [update_frame, if_neg h, hbuf, hbg]
  rfl

/-- Preservation: `update_frame` keeps the estimator invariant (capacity ≥ 1). -/
theorem bgInv_update_frame {ι : Type} (s : BGState ι) (f : ι → ℚ)
    (hmax : 1 ≤ s.maxlen) (hinv : BGInv s) :
    ∃ s1, update_frame s f = some s1 ∧ BGInv s1 ∧ s1.maxlen = s.maxlen ∧
      s1.buffer.length = min (s.buffer.length + 1) s.maxlen := by
  obtain ⟨hlen, hbg⟩ := hinv
  by_cases hfull : s.buffer.length < s.maxlen
  · refine ⟨_, update_frame_not_full s f hfull, ⟨?_, ?_⟩, rfl, ?_⟩
    · simpa using hfull
    · rw [if_neg (by simp)]
      rfl
    · simp only [List.length_append, List.length_cons, List.length_nil]
      omega
  · have hexact : s.buffer.length = s.maxlen := by omega
    obtain ⟨old_frame, rest, hrest⟩ : ∃ a l, s.buffer = a :: l := by
      cases hb : s.buffer with
      | nil =>
          rw [hb] at hexact
          simp only [List.length_nil] at hexact
          omega
      | cons a l => exact ⟨a, l, rfl⟩
    have hbg' : s.background = some (windowAverage s.buffer) := by
      rw [hbg, if_neg (by simp [hrest])]
    refine ⟨_, update_frame_full s f old_frame rest (windowAverage s.buffer)
      hfull hrest hbg', ⟨?_, ?_⟩, rfl, ?_⟩
    · simp only [List.length_append, List.length_cons, List.length_nil]
      rw [hrest] at hexact
      simp only [List.length_cons] at hexact
      omega
    · rw [if_neg (by simp)]
      rw [hrest] at hexact
      rw [hrest, update_background_exact old_frame f rest s.maxlen hexact]
    · simp only [List.length_append, List.length_cons, List.length_nil]
      rw [hrest] at hexact
      simp only [List.length_cons] at hexact
      omega

/-- Running any frame sequence from an invariant state succeeds, preserves the
invariant, and yields window length `min (old + number of frames) capacity`. -/
theorem bgInv_runFrames {ι : Type} (fs : List (ι → ℚ)) (s : BGState ι)
    (hmax : 1 ≤ s.maxlen) (hinv : BGInv s) :
    ∃ s1, runFrames s fs = some s1 ∧ BGInv s1 ∧ s1.maxlen = s.maxlen ∧
      s1.buffer.length = min (s.buffer.length + fs.length) s.maxlen := by
  induction fs generalizing s with
  | nil =>
      refine ⟨s, rfl, hinv, rfl, ?_⟩
      have h1 := hinv.1
      simp only [List.length_nil, Nat.add_zero]
      omega
  | cons f fs ih =>
      obtain ⟨s1, hs1, hinv1, hmax1, hlen1⟩ := bgInv_update_frame s f hmax hinv
      obtain ⟨s2, hs2, hinv2, hmax2, hlen2⟩ := ih s1 (hmax1 ▸ hmax) hinv1
      refine ⟨s2, ?_, hinv2, hmax2.trans hmax1, ?_⟩
      · simp [runFrames, hs1, hs2]
      · rw [hlen2, hlen1, hmax1]
        simp only [List.length_cons]
        omega

/-- Model of `astype('uint8')` applied to the `float32` running mean: a C float-to-int
cast, i.e. truncation toward zero (`Int.tdiv` of numerator by denominator).
Every value it is applied to in the program is an average of 8-bit samples,
hence lies in `[0, 255]`, so no wrap-around occurs. -/
def toUint8 (q : ℚ) : ℤ :=
  Int.tdiv q.num (q.den : ℤ)

/-- Model of `get_background()`: `self.background.astype('uint8')`.  Crashes
(`AttributeError` on `None`) while no frame has been observed, modelled by
`Option`. -/
def get_background {ι : Type} (s : BGState ι) : Option (ι → ℤ) :=
  s.background.map (fun bg i => toUint8 (bg i))

/-- The estimator core of `apply` (src/main.py lines 42–44), operating on the
already-preprocessed grayscale grid: `update_frame(gray)`, then
`absdiff(get_background(), gray)`, then
`threshold(abs_diff, 15, 255, THRESH_BINARY)` — a cell becomes 255 exactly
when the absolute difference strictly exceeds 15, and 0 otherwise. -/
def applyCore {ι : Type} (s : BGState ι) (gray : ι → ℤ) :
    Option (BGState ι × (ι → ℕ)) :=
  (update_frame s (fun i => ((gray i : ℚ)))).bind fun s1 =>
    (get_background s1).map fun bg =>
      (s1, fun i => if 15 < (bg i - gray i).natAbs then 255 else 0)

/-- A successful `update_frame` always leaves a non-`None` background. -/
theorem update_frame_background_isSome {ι : Type} (s : BGState ι)
    (f : ι → ℚ) (s1 : BGState ι) (h : update_frame s f = some s1) :
    ∃ bg, s1.background = some bg := by
  rw [update_frame] at h
  by_cases hfull : s.buffer.length < s.maxlen
  · rw [if_pos hfull] at h
    exact ⟨_, congrArg BGState.background (Option.some_injective _ h).symm⟩
  · rw [if_neg hfull] at h
    match hp : popleft s.buffer, hb : s.background with
    | some (old_frame, rest), some bg =>
        rw [hp, hb] at h
        exact ⟨_, congrArg BGState.background (Option.some_injective _ h).symm⟩
    | some (old_frame, rest), none => rw [hp, hb] at h; exact absurd h (by simp)
    | none, some bg => rw [hp, hb] at h; exact absurd h (by simp)
    | none, none => rw [hp, hb] at h; exact absurd h (by simp)

/-- A BGR color image with explicit dimensions, as delivered by the capture
collaborator (pixel = `(b, g, r)` channel triple). -/
structure ColorImage where
  rows : ℕ
  cols : ℕ
  px : ℕ → ℕ → ℕ × ℕ × ℕ

/-- A single-channel (grayscale / mask) image with explicit dimensions. -/
structure GrayImage where
  rows : ℕ
  cols : ℕ
  px : ℕ → ℕ → ℕ

/-- Model of the external `cv2.resize(img, (w, h))` collaborator on color
images: an image of exactly the target dimensions, here by nearest-neighbour
sampling.  No claim below depends on the interpolation scheme — only on the
output dimensions — so this stands in for OpenCV's default interpolation. -/
def cvResizeColor (img : ColorImage) (w h : ℕ) : ColorImage :=
  ⟨h, w, fun i j => img.px (i * img.rows / h) (j * img.cols / w)⟩

/-- Model of `cv2.resize(img, (w, h))` on single-channel images (used for the
final mask upscale); same remark as `cvResizeColor`. -/
def cvResizeGray (img : GrayImage) (w h : ℕ) : GrayImage :=
  ⟨h, w, fun i j => img.px (i * img.rows / h) (j * img.cols / w)⟩

/-- Model of `cv2.cvtColor(img, cv2.COLOR_BGR2GRAY)`: rounded luma
combination of the `(b, g, r)` channels.  No claim below depends on the
weights. -/
def cvCvtColorBGR2GRAY (img : ColorImage) : GrayImage :=
  ⟨img.rows, img.cols, fun i j =>
    (299 * (img.px i j).2.2 + 587 * (img.px i j).2.1 + 114 * (img.px i j).1 + 500) / 1000⟩

/-- Clamp an integer offset into the index range `[0, n)` (border
replication). -/
def clampIdx (n : ℕ) (i : ℤ) : ℕ :=
  (max 0 (min i ((n : ℤ) - 1))).toNat

/-- Model of `cv2.GaussianBlur(img, (5, 5), 0)`: a separable 5×5 binomial
kernel with replicated borders, preserving dimensions.  No claim below
depends on the kernel weights or the border mode — only on the output
dimensions. -/
def cvGaussianBlur5 (img : GrayImage) : GrayImage :=
  ⟨img.rows, img.cols, fun i j =>
    ((List.range 5).map (fun di =>
      ((List.range 5).map (fun dj =>
        [1, 4, 6, 4, 1].getD di 0 * [1, 4, 6, 4, 1].getD dj 0 *
          img.px (clampIdx img.rows ((i : ℤ) + di - 2))
                 (clampIdx img.cols ((j : ℤ) + dj - 2)))).sum)).sum / 256⟩

/-- The full `apply(frame)` of src/main.py (lines 37–45): downscale the raw
color frame to the configured working size, convert to grayscale, blur, run
the estimator core, and upscale the resulting mask back to
`(width*scale, height*scale)`.  Note the incoming frame is unconditionally
resized to the configured dimensions — there is no dimension check. -/
def apply (s : BGState (ℕ × ℕ)) (frame : ColorImage) :
    Option (BGState (ℕ × ℕ) × GrayImage) :=
  let down_scale := cvResizeColor frame s.width.toNat s.height.toNat
  let gray0 := cvCvtColorBGR2GRAY down_scale
  let gray := cvGaussianBlur5 gray0
  (applyCore s (fun p => ((gray.px p.1 p.2 : ℤ)))).map fun r =>
    (r.1, cvResizeGray ⟨s.height.toNat, s.width.toNat, fun i j => r.2 (i, j)⟩
      (s.width.toNat * s.scale.toNat) (s.height.toNat * s.scale.toNat))

theorem toUint8_intCast (n : ℤ) : toUint8 ((n : ℚ)) = n := by
  rw [toUint8, Rat.num_intCast, Rat.den_intCast, Nat.cast_one, Int.tdiv_one]

/-- A successful `update_frame` appends the incoming frame as the newest
(last) window element. -/
theorem update_frame_buffer_getLast {ι : Type} (s : BGState ι) (f : ι → ℚ)
    (s1 : BGState ι) (h : update_frame s f = some s1) :
    s1.buffer.getLast? = some f := by
  rw [update_frame] at h
  by_cases hfull : s.buffer.length < s.maxlen
  · rw [if_pos hfull] at h
    rw [← Option.some_injective _ h]
    exact List.getLast?_concat _
  · rw [if_neg hfull] at h
    match hp : popleft s.buffer, hb : s.background with
    | some (old_frame, rest), some bg =>
        rw [hp, hb] at h
        rw [← Option.some_injective _ h]
        exact List.getLast?_concat _
    | some (old_frame, rest), none => rw [hp, hb] at h; exact absurd h (by simp)
    | none, some bg => rw [hp, hb] at h; exact absurd h (by simp)
    | none, none => rw [hp, hb] at h; exact absurd h (by simp)

/-- Unfolding a successful `applyCore`: the state was advanced by
`update_frame` first, and the mask is thresholded against the updated
(stored) background. -/
theorem applyCore_eq_some {ι : Type} {s s1 : BGState ι} {gray : ι → ℤ}
    {mask : ι → ℕ} (h : applyCore s gray = some (s1, mask)) :
    update_frame s (fun i => ((gray i : ℚ))) = some s1 ∧
      ∃ bg, s1.background = some bg ∧
        mask = fun i => if 15 < (toUint8 (bg i) - gray i).natAbs then 255 else 0 := by
  rw [applyCore] at h
  obtain ⟨a, ha, hmap⟩ := Option.bind_eq_some.mp h
  obtain ⟨bgf, hbgf, heq⟩ := Option.map_eq_some'.mp hmap
  rw [get_background] at hbgf
  obtain ⟨bg0, hbg0, hbge⟩ := Option.map_eq_some'.mp hbgf
  simp only [Prod.mk.injEq] at heq
  obtain ⟨h1, h2⟩ := heq
  subst h1
  refine ⟨ha, bg0, hbg0, ?_⟩
  rw [← h2, ← hbge]

/-- On any reachable estimator state, a successful `applyCore` leaves the
background equal to the exact average of the post-update window, and the
mask is the 15-threshold of the absolute difference against that (integer-
cast) average. -/
theorem applyCore_reachable {ι : Type} (maxlen : ℕ) (sc w h : ℤ)
    (hmax : 1 ≤ maxlen) (fs : List (ι → ℚ)) (s : BGState ι)
    (hs : runFrames (BGState.fresh ι maxlen sc w h) fs = some s)
    (gray : ι → ℤ) (s1 : BGState ι) (mask : ι → ℕ)
    (happ : applyCore s gray = some (s1, mask)) :
    s1.background = some (windowAverage s1.buffer) ∧
      mask = fun i =>
        if 15 < (toUint8 (windowAverage s1.buffer i) - gray i).natAbs
        then 255 else 0 := by
  obtain ⟨hupd, bg0, hbg0, hmask⟩ := applyCore_eq_some happ
  obtain ⟨s', hs', hinv', hm', hlen'⟩ :=
    bgInv_runFrames fs _ hmax (bgInv_fresh maxlen sc w h)
  rw [hs] at hs'
  cases Option.some_injective _ hs'
  have hmax' : 1 ≤ s.maxlen := by rw [hm']; exact hmax
  obtain ⟨s1', hupd', hinv1, hm1, hlen1⟩ := bgInv_update_frame s _ hmax' hinv'
  rw [hupd] at hupd'
  cases Option.some_injective _ hupd'
  have hne : s1.buffer.isEmpty = false := by
    have : s1.buffer.length ≠ 0 := by
      rw [hlen1]
      omega
    cases hb : s1.buffer with
    | nil => rw [hb] at this; simp at this
    | cons a l => rfl
  have hbg : s1.background = some (windowAverage s1.buffer) := by
    rw [hinv1.2, hne]
    rfl
  rw [hbg] at hbg0
  cases Option.some_injective _ hbg0
  exact ⟨hbg, hmask⟩

/-- C3: on every observe, the returned (pre-upscale) mask marks a cell
foreground (255) iff the absolute difference between the frame and the
current background mean — cast to the integer domain — strictly exceeds 15,
and background (0) iff that difference is at most 15; a cell exactly at the
threshold is therefore consistently background. -/
theorem C3_mask_iff_threshold {ι : Type} (maxlen : ℕ) (sc w h : ℤ)
    (hmax : 1 ≤ maxlen) (fs : List (ι → ℚ)) (s : BGState ι)
    (hs : runFrames (BGState.fresh ι maxlen sc w h) fs = some s)
    (gray : ι → ℤ) (s1 : BGState ι) (mask : ι → ℕ)
    (happ : applyCore s gray = some (s1, mask)) (i : ι) :
    (mask i = 255 ↔
      15 < (gray i - toUint8 (windowAverage s1.buffer i)).natAbs) ∧
    (mask i = 0 ↔
      (gray i - toUint8 (windowAverage s1.buffer i)).natAbs ≤ 15) := by
  obtain ⟨-, hmask⟩ :=
    applyCore_reachable maxlen sc w h hmax fs s hs gray s1 mask happ
  have hcomm : (toUint8 (windowAverage s1.buffer i) - gray i).natAbs
      = (gray i - toUint8 (windowAverage s1.buffer i)).natAbs := by
    rw [← Int.natAbs_neg, neg_sub]
  have hmi : mask i =
      if 15 < (toUint8 (windowAverage s1.buffer i) - gray i).natAbs
      then 255 else 0 := by
    rw [hmask]
  rw [hmi, hcomm]
  by_cases h15 : 15 < (gray i - toUint8 (windowAverage s1.buffer i)).natAbs
  · rw [if_pos h15]
    exact ⟨iff_of_true rfl h15, iff_of_false (by simp) (by omega)⟩
  · rw [if_neg h15]
    exact ⟨iff_of_false (by simp) h15, iff_of_true rfl (by omega)⟩

/-- C10: on both the warm-up and the full-window path, the incoming frame is
first incorporated into the window (it is the newest window element) and the
mask is thresholded against the post-update mean; in particular the very
first observe after configuration returns an all-background mask. -/
theorem C10_mask_uses_post_update_mean {ι : Type} (maxlen : ℕ) (sc w h : ℤ)
    (hmax : 1 ≤ maxlen) (gray : ι → ℤ) :
    (∃ s1 mask, applyCore (BGState.fresh ι maxlen sc w h) gray = some (s1, mask) ∧
        s1.buffer = [fun i => ((gray i : ℚ))] ∧ ∀ i, mask i = 0) ∧
    (∀ fs s, runFrames (BGState.fresh ι maxlen sc w h) fs = some s →
      ∀ s1 mask, applyCore s gray = some (s1, mask) →
        s1.buffer.getLast? = some (fun i => ((gray i : ℚ))) ∧
        mask = fun i =>
          if 15 < (toUint8 (windowAverage s1.buffer i) - gray i).natAbs
          then 255 else 0) := by
  constructor
  · have hfull : (BGState.fresh ι maxlen sc w h).buffer.length <
        (BGState.fresh ι maxlen sc w h).maxlen := by
      simp only [BGState.fresh, List.length_nil]
      omega
    have hupd := update_frame_not_full (BGState.fresh ι maxlen sc w h)
      (fun i => ((gray i : ℚ))) hfull
    refine ⟨{ BGState.fresh ι maxlen sc w h with
        buffer := (BGState.fresh ι maxlen sc w h).buffer ++ [fun i => ((gray i : ℚ))]
        background := some (calculate_background
          ((BGState.fresh ι maxlen sc w h).buffer ++ [fun i => ((gray i : ℚ))])) },
      fun i => if 15 < (toUint8 (calculate_background
        ((BGState.fresh ι maxlen sc w h).buffer ++ [fun i => ((gray i : ℚ))]) i)
        - gray i).natAbs then 255 else 0, ?_, ?_, ?_⟩
    · rw [applyCore, hupd]
      rfl
    · rfl
    · intro i
      have hcb : calculate_background
          ((BGState.fresh ι maxlen sc w h).buffer ++ [fun i => ((gray i : ℚ))]) i
          = ((gray i : ℚ)) := by
        simp [calculate_background, BGState.fresh]
      show (if 15 < (toUint8 (calculate_background
          ((BGState.fresh ι maxlen sc w h).buffer ++ [fun i => ((gray i : ℚ))]) i)
          - gray i).natAbs then 255 else 0) = 0
      rw [hcb, toUint8_intCast, sub_self]
      rfl
  · intro fs s hs s1 mask happ
    obtain ⟨-, hmask⟩ :=
      applyCore_reachable maxlen sc w h hmax fs s hs gray s1 mask happ
    obtain ⟨hupd, -⟩ := applyCore_eq_some happ
    exact ⟨update_frame_buffer_getLast _ _ _ hupd, hmask⟩

/-- Witness for C3: fresh estimator (window size 2), one observed constant
frame of value 100. -/
theorem C3_mask_iff_threshold_witness :
    ∃ s1 mask,
      applyCore (BGState.fresh Unit 2 2 320 240) (fun _ => (100 : ℤ)) =
        some (s1, mask) ∧
      ((mask () = 255 ↔
          15 < ((100 : ℤ) - toUint8 (windowAverage s1.buffer ())).natAbs) ∧
       (mask () = 0 ↔
          ((100 : ℤ) - toUint8 (windowAverage s1.buffer ())).natAbs ≤ 15)) := by
  refine ⟨_, _, rfl, ?_⟩
  exact C3_mask_iff_threshold 2 2 320 240 (by decide) []
    (BGState.fresh Unit 2 2 320 240) rfl (fun _ => (100 : ℤ)) _ _ rfl ()

/-- Witness for C10 at window size 2 with a constant frame of value 100. -/
theorem C10_mask_uses_post_update_mean_witness :
    (∃ s1 mask,
        applyCore (BGState.fresh Unit 2 2 320 240) (fun _ => (100 : ℤ)) =
          some (s1, mask) ∧
        s1.buffer = [fun _ => ((100 : ℤ) : ℚ)] ∧ ∀ i, mask i = 0) ∧
    (∀ fs s, runFrames (BGState.fresh Unit 2 2 320 240) fs = some s →
      ∀ s1 mask, applyCore s (fun _ => (100 : ℤ)) = some (s1, mask) →
        s1.buffer.getLast? = some (fun _ => ((100 : ℤ) : ℚ)) ∧
        mask = fun i =>
          if 15 < (toUint8 (windowAverage s1.buffer i) - 100).natAbs
          then 255 else 0) :=
  C10_mask_uses_post_update_mean 2 2 320 240 (by decide) (fun _ => (100 : ℤ))

/-- State of `PlayGame`: the configured frame dimensions and icon size, the
icon's opaque/transparent mask (derived once from `logo.png` in `__init__`;
indexed over `[0, size)²`), and the mutable icon state. -/
structure PlayGame where
  width : ℤ
  height : ℤ
  size : ℤ
  mask : ℤ → ℤ → ℕ
  x : ℤ
  y : ℤ
  speed : ℤ
  score : ℤ
  lives : ℤ
  game_over : Bool

/-- Contract of `np.random.randint(lo, hi)`: a draw in `[lo, hi)` (for
`lo < hi`).  Randomness is modelled by passing the generator in as a
function. -/
def RandSpec (rand : ℤ → ℤ → ℤ) : Prop :=
  ∀ lo hi : ℤ, lo < hi → lo ≤ rand lo hi ∧ rand lo hi < hi

/-- Model of `reset_game()`: `x = randint(0, width - size)`, `y = 0`, `speed = 15`
(a fixed constant — not a random draw), `score = 0`, `lives = 5`,
`game_over = False`. -/
def reset_game (rand : ℤ → ℤ → ℤ) (s : PlayGame) : PlayGame :=
  { s with
    x := rand 0 (s.width - s.size)
    y := 0
    speed := 15
    score := 0
    lives := 5
    game_over := false }

/-- Model of `np.any(roi[np.where(self.mask)])` with
`roi = fg_mask[y:y+size, x:x+size]`: true iff some cell `(i, j)` of the
icon's footprint has a non-transparent icon pixel (`mask i j ≠ 0`) over a
non-zero foreground pixel of `fg_mask`. -/
def checkCatch (fg : ℤ → ℤ → ℕ) (mask : ℤ → ℤ → ℕ) (size y x : ℤ) : Bool :=
  (List.range size.toNat).any fun i =>
    (List.range size.toNat).any fun j =>
      decide (mask (i : ℤ) (j : ℤ) ≠ 0) &&
        decide (fg (y + (i : ℤ)) (x + (j : ℤ)) ≠ 0)

/-- Model of `update_position(fg_mask)` (src/main.py lines 104–125).  If the game is
over, return `False` without touching any state.  Otherwise advance `y` by
`speed`; if the icon's bottom edge `y + size` reaches the frame bottom,
register a miss (decrement lives, reset `y`, redraw speed from `[10, 15)` and
`x` from `[0, width - size)`, set `game_over` when lives drop to `≤ 0`) and
return `False`; otherwise test the footprint against the foreground mask and
on a catch increment the score, reset `y` and redraw speed from `[10, 20)`
and `x`, returning whether a catch occurred. -/
def update_position (rand : ℤ → ℤ → ℤ) (s : PlayGame) (fg : ℤ → ℤ → ℕ) :
    PlayGame × Bool :=
  if s.game_over then (s, false)
  else
    let y1 := s.y + s.speed
    if s.height ≤ y1 + s.size then
      let lives1 := s.lives - 1
      ({ s with
          lives := lives1
          y := 0
          speed := rand 10 15
          x := rand 0 (s.width - s.size)
          game_over := if lives1 ≤ 0 then true else s.game_over }, false)
    else
      let check := checkCatch fg s.mask s.size y1 s.x
      if check then
        ({ s with
            score := s.score + 1
            y := 0
            speed := rand 10 20
            x := rand 0 (s.width - s.size) }, true)
      else
        ({ s with y := y1 }, false)

/-! ## Claim theorems -/

/-- C1: for every sequence of observed frames, after each call to
`update_frame` the stored background mean equals the exact arithmetic
average of the frames currently held in the window — recomputed from scratch
while the window is not yet full, and maintained by the incremental update
`mean - F_old/N + F_new/N` once it is full, which lands exactly on the
window average in exact arithmetic. -/
theorem C1_mean_is_window_average {ι : Type} (maxlen : ℕ) (sc w h : ℤ)
    (hmax : 1 ≤ maxlen) (fs : List (ι → ℚ)) :
    ∃ s1, runFrames (BGState.fresh ι maxlen sc w h) fs = some s1 ∧
      (fs = [] → s1.background = none) ∧
      (fs ≠ [] → s1.background = some (windowAverage s1.buffer)) := by
  obtain ⟨s1, h1, hinv, hm, hlen⟩ :=
    bgInv_runFrames fs (BGState.fresh ι maxlen sc w h) hmax (bgInv_fresh maxlen sc w h)
  refine ⟨s1, h1, ?_, ?_⟩
  · intro hfs
    subst hfs
    simp only [runFrames] at h1
    rw [← Option.some_injective _ h1]
    rfl
  · intro hfs
    have hpos : 0 < fs.length := List.length_pos.mpr hfs
    have hne : s1.buffer.length ≠ 0 := by
      rw [hlen]
      simp only [BGState.fresh, List.length_nil, Nat.zero_add]
      omega
    have hbempty : s1.buffer.isEmpty = false := by
      cases hb : s1.buffer with
      | nil => rw [hb] at hne; simp at hne
      | cons a l => rfl
    rw [hinv.2, hbempty]
    rfl

/-- Witness for C1 at window size 2 with three constant frames. -/
theorem C1_mean_is_window_average_witness :
    ∃ s1, runFrames (BGState.fresh Unit 2 2 320 240)
        [fun _ => (3 : ℚ), fun _ => 5, fun _ => 9] = some s1 ∧
      (([fun _ => (3 : ℚ), fun _ => 5, fun _ => 9] : List (Unit → ℚ)) = [] →
        s1.background = none) ∧
      (([fun _ => (3 : ℚ), fun _ => 5, fun _ => 9] : List (Unit → ℚ)) ≠ [] →
        s1.background = some (windowAverage s1.buffer)) :=
  C1_mean_is_window_average 2 2 320 240 (by decide)
    [fun _ => (3 : ℚ), fun _ => 5, fun _ => 9]

/-- C9: for every sequence of observe calls, the internal window never holds
more than `maxlen` frames, and once the number of observed frames reaches
`maxlen` the window length stays exactly `maxlen` (the length is
`min (number of frames) maxlen`). -/
theorem C9_window_never_exceeds_capacity {ι : Type} (maxlen : ℕ) (sc w h : ℤ)
    (hmax : 1 ≤ maxlen) (fs : List (ι → ℚ)) :
    ∃ s1, runFrames (BGState.fresh ι maxlen sc w h) fs = some s1 ∧
      s1.buffer.length = min fs.length maxlen ∧
      s1.buffer.length ≤ maxlen ∧
      (maxlen ≤ fs.length → s1.buffer.length = maxlen) := by
  obtain ⟨s1, h1, hinv, hm, hlen⟩ :=
    bgInv_runFrames fs (BGState.fresh ι maxlen sc w h) hmax (bgInv_fresh maxlen sc w h)
  simp only [BGState.fresh, List.length_nil, Nat.zero_add] at hlen
  refine ⟨s1, h1, hlen, ?_, ?_⟩
  · rw [hlen]; omega
  · intro hge; rw [hlen]; omega

/-- Witness for C9: window size 2, four frames — the window sticks at 2. -/
theorem C9_window_never_exceeds_capacity_witness :
    ∃ s1, runFrames (BGState.fresh Unit 2 2 320 240)
        [fun _ => (3 : ℚ), fun _ => 5, fun _ => 9, fun _ => 1] = some s1 ∧
      s1.buffer.length =
        min ([fun _ => (3 : ℚ), fun _ => 5, fun _ => 9, fun _ => 1] :
          List (Unit → ℚ)).length 2 ∧
      s1.buffer.length ≤ 2 ∧
      (2 ≤ ([fun _ => (3 : ℚ), fun _ => 5, fun _ => 9, fun _ => 1] :
          List (Unit → ℚ)).length → s1.buffer.length = 2) :=
  C9_window_never_exceeds_capacity 2 2 320 240 (by decide)
    [fun _ => (3 : ℚ), fun _ => 5, fun _ => 9, fun _ => 1]

/-- Behavior of `update_position` on a miss tick: the bottom test fires
before any mask test is made. -/
theorem update_position_miss (rand : ℤ → ℤ → ℤ) (s : PlayGame)
    (fg : ℤ → ℤ → ℕ) (hgo : s.game_over = false)
    (hmiss : s.height ≤ s.y + s.speed + s.size) :
    update_position rand s fg =
      ({ s with
          lives := s.lives - 1
          y := 0
          speed := rand 10 15
          x := rand 0 (s.width - s.size)
          game_over := if s.lives - 1 ≤ 0 then true else s.game_over }, false) := by
  simp only [update_position]
  rw [if_neg (by rw [hgo]; simp), if_pos hmiss]

/-- Behavior of `update_position` on a catch tick (bottom not reached, icon
footprint over a foreground pixel). -/
theorem update_position_catch (rand : ℤ → ℤ → ℤ) (s : PlayGame)
    (fg : ℤ → ℤ → ℕ) (hgo : s.game_over = false)
    (hfall : s.y + s.speed + s.size < s.height)
    (hcatch : checkCatch fg s.mask s.size (s.y + s.speed) s.x = true) :
    update_position rand s fg =
      ({ s with
          score := s.score + 1
          y := 0
          speed := rand 10 20
          x := rand 0 (s.width - s.size) }, true) := by
  simp only [update_position]
  rw [if_neg (by rw [hgo]; simp), if_neg (by omega), if_pos hcatch]

/-- C5: when the game-over flag is set, `update_position` returns collision
false and leaves every component of the state unchanged, for every
foreground mask input. -/
theorem C5_game_over_suppresses_updates (rand : ℤ → ℤ → ℤ) (s : PlayGame)
    (fg : ℤ → ℤ → ℕ) (h : s.game_over = true) :
    update_position rand s fg = (s, false) := by
  rw [update_position, if_pos h]

/-- Witness for C5 on a concrete game-over state. -/
theorem C5_game_over_suppresses_updates_witness :
    update_position (fun lo _ => lo)
        ⟨640, 480, 50, fun _ _ => 255, 3, 7, 15, 2, 4, true⟩ (fun _ _ => 0) =
      (⟨640, 480, 50, fun _ _ => 255, 3, 7, 15, 2, 4, true⟩, false) :=
  C5_game_over_suppresses_updates (fun lo _ => lo)
    ⟨640, 480, 50, fun _ _ => 255, 3, 7, 15, 2, 4, true⟩ (fun _ _ => 0) rfl

/-- C4: on a miss tick with the game running, lives decrease by exactly 1,
and the game-over flag is set exactly when the decremented lives reach 0
(the check sits at the same point as the decrement); the collision result is
false. -/
theorem C4_lives_exhaustion (rand : ℤ → ℤ → ℤ) (s : PlayGame)
    (fg : ℤ → ℤ → ℕ) (hgo : s.game_over = false)
    (hmiss : s.height ≤ s.y + s.speed + s.size) (hl : 1 ≤ s.lives) :
    (update_position rand s fg).2 = false ∧
    (update_position rand s fg).1.lives = s.lives - 1 ∧
    ((update_position rand s fg).1.game_over = true ↔ s.lives - 1 = 0) := by
  rw [update_position_miss rand s fg hgo hmiss]
  refine ⟨rfl, rfl, ?_⟩
  show (if s.lives - 1 ≤ 0 then true else s.game_over) = true ↔ s.lives - 1 = 0
  by_cases hc : s.lives - 1 ≤ 0
  · rw [if_pos hc]
    exact iff_of_true rfl (by omega)
  · rw [if_neg hc]
    rw [hgo]
    exact iff_of_false (by simp) (by omega)

/-- Witness for C4: lives = 1, a single miss tick sets the game-over flag. -/
theorem C4_lives_exhaustion_witness :
    (update_position (fun lo _ => lo)
        ⟨640, 480, 50, fun _ _ => 0, 0, 440, 15, 0, 1, false⟩ (fun _ _ => 0)).2 =
      false ∧
    (update_position (fun lo _ => lo)
        ⟨640, 480, 50, fun _ _ => 0, 0, 440, 15, 0, 1, false⟩ (fun _ _ => 0)).1.lives =
      1 - 1 ∧
    ((update_position (fun lo _ => lo)
        ⟨640, 480, 50, fun _ _ => 0, 0, 440, 15, 0, 1, false⟩ (fun _ _ => 0)).1.game_over =
        true ↔ (1 : ℤ) - 1 = 0) :=
  C4_lives_exhaustion (fun lo _ => lo)
    ⟨640, 480, 50, fun _ _ => 0, 0, 440, 15, 0, 1, false⟩ (fun _ _ => 0)
    rfl (by decide) (by decide)

/-- Counterexample to C2 as stated: a state whose icon footprint at its
post-advance location overlaps foreground everywhere (mask and foreground
all 255), but whose post-advance bottom edge reaches the bottom of the play
area.  The claim predicts a catch (score 1, collision true); the code checks
the bottom first and registers a miss: collision false, score unchanged,
lives decremented. -/
theorem C2_catch_priority_counterexample :
    checkCatch (fun _ _ => 255) (fun _ _ => 255) 50 (420 + 15) 0 = true ∧
    (update_position (fun lo _ => lo)
        ⟨640, 480, 50, fun _ _ => 255, 0, 420, 15, 0, 5, false⟩
        (fun _ _ => 255)).2 = false ∧
    (update_position (fun lo _ => lo)
        ⟨640, 480, 50, fun _ _ => 255, 0, 420, 15, 0, 5, false⟩
        (fun _ _ => 255)).1.score = 0 ∧
    (update_position (fun lo _ => lo)
        ⟨640, 480, 50, fun _ _ => 255, 0, 420, 15, 0, 5, false⟩
        (fun _ _ => 255)).1.lives = 4 := by
  refine ⟨by decide, ?_, ?_, ?_⟩ <;>
    rw [update_position_miss (fun lo _ => lo)
      ⟨640, 480, 50, fun _ _ => 255, 0, 420, 15, 0, 5, false⟩
      (fun _ _ => 255) rfl (by decide)]
  decide

/-- C2 amended: the miss check has priority over the catch check.  Whenever
the post-advance bottom edge reaches the bottom, the tick is a miss
(collision false, score unchanged, lives decremented) regardless of any
overlap; only when the bottom is not reached does an overlap of the icon's
non-transparent pixels with the foreground register a catch: score + 1,
vertical position reset to top, speed redrawn from [10, 20), horizontal
position redrawn within [0, width − size), collision true. -/
theorem C2_miss_checked_before_catch (rand : ℤ → ℤ → ℤ) (hrand : RandSpec rand)
    (s : PlayGame) (fg : ℤ → ℤ → ℕ) (hgo : s.game_over = false) :
    (s.height ≤ s.y + s.speed + s.size →
      (update_position rand s fg).2 = false ∧
      (update_position rand s fg).1.score = s.score ∧
      (update_position rand s fg).1.lives = s.lives - 1) ∧
    (s.y + s.speed + s.size < s.height →
      checkCatch fg s.mask s.size (s.y + s.speed) s.x = true →
      (update_position rand s fg).2 = true ∧
      (update_position rand s fg).1.score = s.score + 1 ∧
      (update_position rand s fg).1.y = 0 ∧
      10 ≤ (update_position rand s fg).1.speed ∧
      (update_position rand s fg).1.speed < 20 ∧
      (0 < s.width - s.size →
        0 ≤ (update_position rand s fg).1.x ∧
        (update_position rand s fg).1.x < s.width - s.size) ∧
      (update_position rand s fg).1.lives = s.lives ∧
      (update_position rand s fg).1.game_over = false) := by
  constructor
  · intro hmiss
    rw [update_position_miss rand s fg hgo hmiss]
    exact ⟨rfl, rfl, rfl⟩
  · intro hfall hcatch
    rw [update_position_catch rand s fg hgo hfall hcatch]
    obtain ⟨hsp1, hsp2⟩ := hrand 10 20 (by omega)
    refine ⟨rfl, rfl, rfl, hsp1, hsp2, ?_, rfl, hgo⟩
    intro hw
    exact hrand 0 (s.width - s.size) hw

/-- Witness for the amended C2 on a concrete catch tick. -/
theorem C2_miss_checked_before_catch_witness :
    ((480 : ℤ) ≤ 100 + 15 + 50 →
      (update_position (fun lo _ => lo)
          ⟨640, 480, 50, fun _ _ => 255, 0, 100, 15, 0, 5, false⟩
          (fun _ _ => 255)).2 = false ∧
      (update_position (fun lo _ => lo)
          ⟨640, 480, 50, fun _ _ => 255, 0, 100, 15, 0, 5, false⟩
          (fun _ _ => 255)).1.score = 0 ∧
      (update_position (fun lo _ => lo)
          ⟨640, 480, 50, fun _ _ => 255, 0, 100, 15, 0, 5, false⟩
          (fun _ _ => 255)).1.lives = 5 - 1) ∧
    ((100 : ℤ) + 15 + 50 < 480 →
      checkCatch (fun _ _ => 255) (fun _ _ => 255) 50 (100 + 15) 0 = true →
      (update_position (fun lo _ => lo)
          ⟨640, 480, 50, fun _ _ => 255, 0, 100, 15, 0, 5, false⟩
          (fun _ _ => 255)).2 = true ∧
      (update_position (fun lo _ => lo)
          ⟨640, 480, 50, fun _ _ => 255, 0, 100, 15, 0, 5, false⟩
          (fun _ _ => 255)).1.score = 0 + 1 ∧
      (update_position (fun lo _ => lo)
          ⟨640, 480, 50, fun _ _ => 255, 0, 100, 15, 0, 5, false⟩
          (fun _ _ => 255)).1.y = 0 ∧
      10 ≤ (update_position (fun lo _ => lo)
          ⟨640, 480, 50, fun _ _ => 255, 0, 100, 15, 0, 5, false⟩
          (fun _ _ => 255)).1.speed ∧
      (update_position (fun lo _ => lo)
          ⟨640, 480, 50, fun _ _ => 255, 0, 100, 15, 0, 5, false⟩
          (fun _ _ => 255)).1.speed < 20 ∧
      ((0 : ℤ) < 640 - 50 →
        0 ≤ (update_position (fun lo _ => lo)
            ⟨640, 480, 50, fun _ _ => 255, 0, 100, 15, 0, 5, false⟩
            (fun _ _ => 255)).1.x ∧
        (update_position (fun lo _ => lo)
            ⟨640, 480, 50, fun _ _ => 255, 0, 100, 15, 0, 5, false⟩
            (fun _ _ => 255)).1.x < 640 - 50) ∧
      (update_position (fun lo _ => lo)
          ⟨640, 480, 50, fun _ _ => 255, 0, 100, 15, 0, 5, false⟩
          (fun _ _ => 255)).1.lives = 5 ∧
      (update_position (fun lo _ => lo)
          ⟨640, 480, 50, fun _ _ => 255, 0, 100, 15, 0, 5, false⟩
          (fun _ _ => 255)).1.game_over = false) :=
  C2_miss_checked_before_catch (fun lo _ => lo) (fun _ _ h => ⟨le_rfl, h⟩)
    ⟨640, 480, 50, fun _ _ => 255, 0, 100, 15, 0, 5, false⟩ (fun _ _ => 255) rfl

/-- Counterexample to C6 as stated: `reset_game` sets `speed = 15`, a fixed
constant, rather than redrawing it from a random range.  With a generator
all of whose draws equal 12 (in particular its draws on both configured
speed ranges, `[10, 15)` and `[10, 20)`, are 12), the post-reset speed is
still 15 — the speed does not come from the random source. -/
theorem C6_speed_not_redrawn_counterexample :
    (reset_game (fun _ _ => 12)
        ⟨640, 480, 50, fun _ _ => 255, 3, 7, 18, 9, 2, true⟩).speed = 15 ∧
    (fun _ _ => (12 : ℤ)) 10 15 = 12 ∧
    (fun _ _ => (12 : ℤ)) 10 20 = 12 ∧
    (15 : ℤ) ≠ 12 :=
  ⟨rfl, rfl, rfl, by decide⟩

/-- C6 amended: `reset_game` restores lives = 5, score = 0, clears the
game-over flag, puts the vertical position at the top, sets speed to the
fixed initial value 15 (not redrawn), and redraws the horizontal position
within `[0, width − size)`. -/
theorem C6_reset_restores_initial_state (rand : ℤ → ℤ → ℤ)
    (hrand : RandSpec rand) (s : PlayGame) (hw : 0 < s.width - s.size) :
    (reset_game rand s).lives = 5 ∧
    (reset_game rand s).score = 0 ∧
    (reset_game rand s).game_over = false ∧
    (reset_game rand s).y = 0 ∧
    (reset_game rand s).speed = 15 ∧
    0 ≤ (reset_game rand s).x ∧
    (reset_game rand s).x < s.width - s.size := by
  obtain ⟨h1, h2⟩ := hrand 0 (s.width - s.size) hw
  exact ⟨rfl, rfl, rfl, rfl, rfl, h1, h2⟩

/-- Witness for the amended C6 on a concrete game-over state. -/
theorem C6_reset_restores_initial_state_witness :
    (reset_game (fun lo _ => lo)
        ⟨640, 480, 50, fun _ _ => 255, 3, 7, 18, 9, 2, true⟩).lives = 5 ∧
    (reset_game (fun lo _ => lo)
        ⟨640, 480, 50, fun _ _ => 255, 3, 7, 18, 9, 2, true⟩).score = 0 ∧
    (reset_game (fun lo _ => lo)
        ⟨640, 480, 50, fun _ _ => 255, 3, 7, 18, 9, 2, true⟩).game_over = false ∧
    (reset_game (fun lo _ => lo)
        ⟨640, 480, 50, fun _ _ => 255, 3, 7, 18, 9, 2, true⟩).y = 0 ∧
    (reset_game (fun lo _ => lo)
        ⟨640, 480, 50, fun _ _ => 255, 3, 7, 18, 9, 2, true⟩).speed = 15 ∧
    0 ≤ (reset_game (fun lo _ => lo)
        ⟨640, 480, 50, fun _ _ => 255, 3, 7, 18, 9, 2, true⟩).x ∧
    (reset_game (fun lo _ => lo)
        ⟨640, 480, 50, fun _ _ => 255, 3, 7, 18, 9, 2, true⟩).x < 640 - 50 :=
  C6_reset_restores_initial_state (fun lo _ => lo) (fun _ _ h => ⟨le_rfl, h⟩)
    ⟨640, 480, 50, fun _ _ => 255, 3, 7, 18, 9, 2, true⟩ (by decide)

/-- Counterexample to C7 as stated: constructing the estimator with window
size 0 (< 1) succeeds — `__init__` performs no validation and
`deque(maxlen=0)` is legal — and so does constructing it with non-positive
dimensions. -/
theorem C7_no_validation_counterexample :
    (BGState.init Unit 640 480 2 0).isOk = true ∧
    (BGState.init Unit 0 (-5) 2 5).isOk = true :=
  ⟨rfl, rfl⟩

/-- C7 amended: `__init__` performs no configuration validation of its own.
Construction succeeds exactly when `scale ≠ 0` (else Python's
`ZeroDivisionError` from `width // scale`) and `maxlen ≥ 0` (else the
`ValueError` raised by `deque(maxlen=...)`); window size 0 and non-positive
dimensions are accepted, and no `InvalidConfiguration` error exists. -/
theorem C7_init_accepts_any_config (ι : Type) (width height scale maxlen : ℤ) :
    ((BGState.init ι width height scale maxlen).isOk = true ↔
      (scale ≠ 0 ∧ 0 ≤ maxlen)) ∧
    (BGState.init ι width height scale maxlen = .error .zeroDivision ↔
      scale = 0) ∧
    (BGState.init ι width height scale maxlen = .error .valueError ↔
      (scale ≠ 0 ∧ maxlen < 0)) := by
  rw [BGState.init]
  by_cases hsc : scale = 0
  · rw [if_pos hsc]
    refine ⟨iff_of_false (by simp [Except.isOk, Except.toBool]) (fun hc => hc.1 hsc),
      iff_of_true rfl hsc, iff_of_false (by simp) (fun hc => hc.1 hsc)⟩
  · rw [if_neg hsc]
    by_cases hm : maxlen < 0
    · rw [if_pos hm]
      refine ⟨iff_of_false (by simp [Except.isOk, Except.toBool]) (fun hc => by omega),
        iff_of_false (by simp) hsc, iff_of_true rfl ⟨hsc, hm⟩⟩
    · rw [if_neg hm]
      refine ⟨iff_of_true rfl ⟨hsc, by omega⟩,
        iff_of_false (by simp) hsc, iff_of_false (by simp) (fun hc => hm hc.2)⟩

/-- On any invariant state with capacity ≥ 1, the estimator core of `apply`
succeeds. -/
theorem applyCore_isSome {ι : Type} (s : BGState ι) (gray : ι → ℤ)
    (hmax : 1 ≤ s.maxlen) (hinv : BGInv s) :
    (applyCore s gray).isSome = true := by
  obtain ⟨s1, hupd, _, _, _⟩ :=
    bgInv_update_frame s (fun i => ((gray i : ℚ))) hmax hinv
  obtain ⟨bg, hbg⟩ := update_frame_background_isSome _ _ _ hupd
  rw [applyCore, hupd, Option.some_bind, get_background, hbg]
  rfl

/-- Counterexample to C8 as stated: a 3×3 frame, whose dimensions differ
from the configured working dimensions 240×320, is accepted by `apply`
without any dimension error — the frame is simply resized. -/
theorem C8_dimension_mismatch_counterexample :
    ((⟨3, 3, fun _ _ => (7, 7, 7)⟩ : ColorImage).rows,
      (⟨3, 3, fun _ _ => (7, 7, 7)⟩ : ColorImage).cols) ≠
      ((BGState.fresh (ℕ × ℕ) 5 2 320 240).height.toNat,
        (BGState.fresh (ℕ × ℕ) 5 2 320 240).width.toNat) ∧
    (apply (BGState.fresh (ℕ × ℕ) 5 2 320 240)
      ⟨3, 3, fun _ _ => (7, 7, 7)⟩).isSome = true := by
  exact ⟨by decide, rfl⟩

/-- C8 amended: `apply` begins by resizing the incoming frame to the
configured working size, so it never signals a dimension mismatch: it
succeeds for every frame of every dimension, on every reachable estimator
state with capacity ≥ 1. -/
theorem C8_observe_accepts_any_dimensions (maxlen : ℕ) (sc w h : ℤ)
    (hmax : 1 ≤ maxlen) (fs : List ((ℕ × ℕ) → ℚ)) (s : BGState (ℕ × ℕ))
    (hs : runFrames (BGState.fresh (ℕ × ℕ) maxlen sc w h) fs = some s)
    (frame : ColorImage) :
    (apply s frame).isSome = true := by
  obtain ⟨s0, hs0, hinv, hm, hlen⟩ :=
    bgInv_runFrames fs _ hmax (bgInv_fresh maxlen sc w h)
  rw [hs] at hs0
  cases Option.some_injective _ hs0
  have hmax2 : 1 ≤ s.maxlen := by rw [hm]; exact hmax
  simp only [apply, Option.isSome_map']
  exact applyCore_isSome s _ hmax2 hinv

/-- Witness for the amended C8: the mismatched 3×3 frame from the
counterexample is processed successfully by a fresh estimator. -/
theorem C8_observe_accepts_any_dimensions_witness :
    (apply (BGState.fresh (ℕ × ℕ) 5 2 320 240)
      ⟨3, 3, fun _ _ => (7, 7, 7)⟩).isSome = true :=
  C8_observe_accepts_any_dimensions 5 2 320 240 (by decide) [] _ rfl
    ⟨3, 3, fun _ _ => (7, 7, 7)⟩

end Spec2Proof
